import Mathlib

/-!
Verification of the packages-exporter pipeline (`scripts/packages_exporter.py`):
the noarch reconciliation engine, the signature-verification scan, the
cross-run error log, the reconciliation pairing and the ownership handling
of the export orchestrator.  Python string operations are modelled on
`List Char` (the inputs of interest are ASCII, so the ASCII fragments of
Python `\w`, `\s`, `str.lower`, `str.strip` are faithful).
-/

/-! ## Generic string helpers (Python `in`, `startswith`, `endswith`, `strip`, `lower`, `split`) -/

/-- Case-sensitive list-prefix test (Python `str.startswith` on the char level). -/
def startsWithChars : List Char → List Char → Bool
  | [], _ => true
  | _ :: _, [] => false
  | p :: ps, c :: cs => (p == c) && startsWithChars ps cs

/-- Python `suffix in s` restricted to a suffix test via reversal (`str.endswith`). -/
def endsWithChars (suffix cs : List Char) : Bool :=
  startsWithChars suffix.reverse cs.reverse

/-- Python substring containment `pat in s`. -/
def listContainsSub (pat : List Char) : List Char → Bool
  | [] => pat.isEmpty
  | c :: rest => startsWithChars pat (c :: rest) || listContainsSub pat rest

/-- ASCII fragment of Python `str.lower`. -/
def lowerStr (s : String) : String :=
  String.mk (s.data.map Char.toLower)

/-- ASCII whitespace stripped by Python `str.strip`. -/
def isPyWhitespace (c : Char) : Bool :=
  c == ' ' || c == '\t' || c == '\n' || c == '\r' || c == '\x0b' || c == '\x0c'

/-- Python `str.strip`. -/
def trimChars (cs : List Char) : List Char :=
  ((cs.dropWhile isPyWhitespace).reverse.dropWhile isPyWhitespace).reverse

/-- Python `s.split('\n')`. -/
def splitOnNewline : List Char → List (List Char)
  | [] => [[]]
  | c :: rest =>
    match splitOnNewline rest with
    | [] => [[c]]
    | l :: ls => if c == '\n' then [] :: l :: ls else (c :: l) :: ls

/-! ## Data model: `PackageRecord` as fetched by `retrieve_all_packages_from_pulp`
(fields `name, version, release, sha256, pulp_href`; the query itself filters
`arch = noarch`, so every record listed here is a noarch record). -/

structure PackageRecord where
  name : String
  version : String
  release : String
  sha256 : String
  pulp_href : String
deriving Repr, DecidableEq

/-- `'.module_el' in pkg_release` from `copy_noarch_packages_from_x86_64_repo`. -/
def is_modular (release : String) : Bool :=
  listContainsSub ".module_el".data release.data

/-- `next((pkg for pkg in destination_repo_packages if all((...name, ...version, ...release))), None)`. -/
def find_compared_pkg (destination_repo_packages : List PackageRecord)
    (p : PackageRecord) : Option PackageRecord :=
  destination_repo_packages.find? (fun pkg =>
    pkg.name == p.name && pkg.version == p.version && pkg.release == p.release)

/-- The pure add/remove computation of `copy_noarch_packages_from_x86_64_repo`
(lines 243-266): walk the source packages in order; a source package with no
`(name, version, release)` match in the destination is marked for addition
unless it is modular or the `show_differ_packages` mode is on; a match with a
differing `sha256` marks the destination handle for removal and the source
handle for addition. -/
def compute_add_remove (show_differ_packages : Bool)
    (destination_repo_packages : List PackageRecord) :
    List PackageRecord → List String × List String
  | [] => ([], [])
  | p :: rest =>
    match find_compared_pkg destination_repo_packages p with
    | none =>
      if is_modular p.release || show_differ_packages then
        compute_add_remove show_differ_packages destination_repo_packages rest
      else
        (p.pulp_href ::
            (compute_add_remove show_differ_packages destination_repo_packages rest).1,
          (compute_add_remove show_differ_packages destination_repo_packages rest).2)
    | some compared_pkg =>
      if p.sha256 != compared_pkg.sha256 then
        (p.pulp_href ::
            (compute_add_remove show_differ_packages destination_repo_packages rest).1,
          compared_pkg.pulp_href ::
            (compute_add_remove show_differ_packages destination_repo_packages rest).2)
      else compute_add_remove show_differ_packages destination_repo_packages rest

/-- One `modify_repository(destination_repo_href, add=..., remove=...)` call. -/
structure ModifyCall where
  repo_href : String
  add : List String
  remove : List String
deriving Repr, DecidableEq

/-- The content-modification calls issued by
`copy_noarch_packages_from_x86_64_repo` (lines 268-276): a single call with
both lists, guarded by `packages_to_add` being non-empty and the
`only_check_noarch` mode being off. -/
def copy_noarch_calls (only_check_noarch show_differ_packages : Bool)
    (source_repo_packages destination_repo_packages : List PackageRecord)
    (destination_repo_href : String) : List ModifyCall :=
  if !(compute_add_remove show_differ_packages destination_repo_packages
        source_repo_packages).1.isEmpty && !only_check_noarch then
    [⟨destination_repo_href,
      (compute_add_remove show_differ_packages destination_repo_packages
        source_repo_packages).1,
      (compute_add_remove show_differ_packages destination_repo_packages
        source_repo_packages).2⟩]
  else []

def pkgA : PackageRecord :=
  ⟨"bash-completion", "2.8", "8.el8", "sha-c1", "href-src-A"⟩

def pkgAdest : PackageRecord :=
  ⟨"bash-completion", "2.8", "8.el8", "sha-c2", "href-dst-A"⟩

def pkgModular : PackageRecord :=
  ⟨"perl-DBI", "1.641", "4.module_el8.1.0+199+8f0a6bbd", "sha-m", "href-src-M"⟩

example : is_modular pkgModular.release = true := by decide
example : is_modular pkgA.release = false := by decide
example : compute_add_remove false [] [pkgA] = (["href-src-A"], []) := by decide
example : compute_add_remove true [] [pkgA] = ([], []) := by decide
example : compute_add_remove false [] [pkgModular] = ([], []) := by decide
example : compute_add_remove false [pkgAdest] [pkgA]
    = (["href-src-A"], ["href-dst-A"]) := by decide
example : copy_noarch_calls false false [pkgA] [] "dst-href"
    = [⟨"dst-href", ["href-src-A"], []⟩] := by decide
example : copy_noarch_calls true false [pkgA] [] "dst-href" = [] := by decide

/-! ## Reconciliation lemmas -/

/-- Soundness of the add list: every added handle comes from a source package
that either had no destination match (non-modular, show-differ off) or had a
match with a differing checksum. -/
theorem mem_add_sound (show_differ : Bool) (dst src : List PackageRecord) (h : String)
    (hmem : h ∈ (compute_add_remove show_differ dst src).1) :
    ∃ p, p ∈ src ∧ p.pulp_href = h ∧
      ((find_compared_pkg dst p = none ∧ is_modular p.release = false
          ∧ show_differ = false)
        ∨ ∃ c, find_compared_pkg dst p = some c ∧ p.sha256 ≠ c.sha256) := by
  induction src with
  | nil => simp [compute_add_remove] at hmem
  | cons p rest ih =>
    rcases hf : find_compared_pkg dst p with _ | c
    · cases hm : (is_modular p.release || show_differ) with
      | true =>
        simp [compute_add_remove, hf, hm] at hmem
        rcases ih hmem with ⟨q, hq, hh, hcond⟩
        exact ⟨q, List.mem_cons_of_mem _ hq, hh, hcond⟩
      | false =>
        simp [compute_add_remove, hf, hm] at hmem
        rcases hmem with rfl | hmem
        · rcases Bool.or_eq_false_iff.mp hm with ⟨hm1, hm2⟩
          exact ⟨p, List.mem_cons_self _ _, rfl, Or.inl ⟨hf, hm1, hm2⟩⟩
        · rcases ih hmem with ⟨q, hq, hh, hcond⟩
          exact ⟨q, List.mem_cons_of_mem _ hq, hh, hcond⟩
    · cases hs : (p.sha256 != c.sha256) with
      | true =>
        simp [compute_add_remove, hf, hs] at hmem
        rcases hmem with rfl | hmem
        · exact ⟨p, List.mem_cons_self _ _, rfl, Or.inr ⟨c, hf, bne_iff_ne.mp hs⟩⟩
        · rcases ih hmem with ⟨q, hq, hh, hcond⟩
          exact ⟨q, List.mem_cons_of_mem _ hq, hh, hcond⟩
      | false =>
        simp [compute_add_remove, hf, hs] at hmem
        rcases ih hmem with ⟨q, hq, hh, hcond⟩
        exact ⟨q, List.mem_cons_of_mem _ hq, hh, hcond⟩

/-- Completeness of the add list for unmatched, non-modular source packages
(show-differ mode off). -/
theorem mem_add_of_no_match (dst src : List PackageRecord) (p : PackageRecord)
    (hp : p ∈ src) (hm : is_modular p.release = false)
    (hf : find_compared_pkg dst p = none) :
    p.pulp_href ∈ (compute_add_remove false dst src).1 := by
  induction src with
  | nil => cases hp
  | cons q rest ih =>
    rcases List.mem_cons.mp hp with rfl | hp2
    · simp [compute_add_remove, hf, hm]
    · rcases hfq : find_compared_pkg dst q with _ | c
      · cases hmq : (is_modular q.release || false) with
        | true => simpa [compute_add_remove, hfq, hmq] using ih hp2
        | false => simpa [compute_add_remove, hfq, hmq] using Or.inr (ih hp2)
      · cases hsq : (q.sha256 != c.sha256) with
        | true => simpa [compute_add_remove, hfq, hsq] using Or.inr (ih hp2)
        | false => simpa [compute_add_remove, hfq, hsq] using ih hp2

/-- Completeness of the replacement branch: a match with a differing checksum
puts the destination handle in the remove list and the source handle in the
add list, in every mode. -/
theorem mem_of_checksum_differs (show_differ : Bool) (dst src : List PackageRecord)
    (p c : PackageRecord) (hp : p ∈ src)
    (hf : find_compared_pkg dst p = some c) (hs : p.sha256 ≠ c.sha256) :
    c.pulp_href ∈ (compute_add_remove show_differ dst src).2
    ∧ p.pulp_href ∈ (compute_add_remove show_differ dst src).1 := by
  induction src with
  | nil => cases hp
  | cons q rest ih =>
    rcases List.mem_cons.mp hp with rfl | hp2
    · have hbne : (p.sha256 != c.sha256) = true := bne_iff_ne.mpr hs
      simp [compute_add_remove, hf, hbne]
    · rcases hfq : find_compared_pkg dst q with _ | d
      · cases hmq : (is_modular q.release || show_differ) with
        | true => simpa [compute_add_remove, hfq, hmq] using ih hp2
        | false =>
          have hih := ih hp2
          simp [compute_add_remove, hfq, hmq]
          exact ⟨hih.1, Or.inr hih.2⟩
      · cases hsq : (q.sha256 != d.sha256) with
        | true =>
          have hih := ih hp2
          simp [compute_add_remove, hfq, hsq]
          exact ⟨Or.inr hih.1, Or.inr hih.2⟩
        | false => simpa [compute_add_remove, hfq, hsq] using ih hp2

/-- Every entry of the remove list is matched by an entry of the add list:
the remove list is never longer than the add list. -/
theorem remove_length_le_add_length (show_differ : Bool)
    (dst src : List PackageRecord) :
    (compute_add_remove show_differ dst src).2.length
      ≤ (compute_add_remove show_differ dst src).1.length := by
  induction src with
  | nil => simp [compute_add_remove]
  | cons p rest ih =>
    rcases hf : find_compared_pkg dst p with _ | c
    · cases hm : (is_modular p.release || show_differ) with
      | true => simpa [compute_add_remove, hf, hm] using ih
      | false =>
        simp [compute_add_remove, hf, hm]
        exact Nat.le_succ_of_le ih
    · cases hs : (p.sha256 != c.sha256) with
      | true =>
        simp [compute_add_remove, hf, hs]
        exact ih
      | false => simpa [compute_add_remove, hf, hs] using ih

/-! ## Claim theorems about reconciliation -/

/-- C4 counterexample: with the `show_differ_packages` option on, a
non-modular source package with no destination match is NOT marked for
addition, so the claim as stated (quantified over every run of the engine,
with no mode restriction) fails. -/
theorem C4_counterexample :
    is_modular pkgA.release = false
    ∧ find_compared_pkg [] pkgA = none
    ∧ pkgA.pulp_href ∉ (compute_add_remove true [] [pkgA]).1 := by
  refine ⟨by decide, by decide, by decide⟩

/-- C4 (amended): for a source package `p` (every listed source package is
noarch by construction of the listing query):
when `p` is non-modular and has no destination `(name, version, release)`
match, its handle is in the add list provided the `show_differ_packages`
mode is off; when the destination match has a differing checksum, the
destination handle is in the remove list and `p`'s in the add list (any
mode); and a modular `p` with no destination match is never in the add list
(any mode), provided no other source package shares its content handle. -/
theorem C4_reconciliation_correct (src dst : List PackageRecord)
    (p : PackageRecord) (hp : p ∈ src) :
    (is_modular p.release = false → find_compared_pkg dst p = none →
      p.pulp_href ∈ (compute_add_remove false dst src).1)
    ∧ (∀ (show_differ : Bool) (c : PackageRecord),
        find_compared_pkg dst p = some c → p.sha256 ≠ c.sha256 →
        c.pulp_href ∈ (compute_add_remove show_differ dst src).2
        ∧ p.pulp_href ∈ (compute_add_remove show_differ dst src).1)
    ∧ (∀ show_differ : Bool, is_modular p.release = true →
        find_compared_pkg dst p = none →
        (∀ q, q ∈ src → q.pulp_href = p.pulp_href →
          is_modular q.release = true ∧ find_compared_pkg dst q = none) →
        p.pulp_href ∉ (compute_add_remove show_differ dst src).1) := by
  refine ⟨fun hm hf => mem_add_of_no_match dst src p hp hm hf,
    fun show_differ c hf hs => mem_of_checksum_differs show_differ dst src p c hp hf hs,
    fun show_differ _ _ huniq hmem => ?_⟩
  rcases mem_add_sound show_differ dst src p.pulp_href hmem with ⟨q, hq, hh, hcond⟩
  rcases huniq q hq hh with ⟨hqm, hqf⟩
  rcases hcond with ⟨_, hqm2, _⟩ | ⟨c, hqc, _⟩
  · rw [hqm] at hqm2; cases hqm2
  · rw [hqf] at hqc; cases hqc

/-- C4 witness: the amended theorem applied at a concrete source/destination. -/
theorem C4_witness :
    pkgA.pulp_href ∈ (compute_add_remove false [] [pkgA]).1
    ∧ pkgAdest.pulp_href ∈ (compute_add_remove false [pkgAdest] [pkgA]).2 := by
  refine ⟨(C4_reconciliation_correct [pkgA] [] pkgA (by decide)).1
      (by decide) (by decide),
    ((C4_reconciliation_correct [pkgA] [pkgAdest] pkgA (by decide)).2.1
      false pkgAdest (by decide) (by decide)).1⟩

/-- C5: the add and remove lists are always submitted together in a single
content-modification call (at most one call per destination, carrying
exactly the computed add and remove lists), and in compare-only mode
(`only_check_noarch`) no content-modification call is issued at all. -/
theorem C5_atomic_modify (only_check show_differ : Bool)
    (src dst : List PackageRecord) (href : String) :
    (copy_noarch_calls only_check show_differ src dst href).length ≤ 1
    ∧ (∀ c, c ∈ copy_noarch_calls only_check show_differ src dst href →
        c.repo_href = href
        ∧ c.add = (compute_add_remove show_differ dst src).1
        ∧ c.remove = (compute_add_remove show_differ dst src).2)
    ∧ (only_check = true →
        copy_noarch_calls only_check show_differ src dst href = []) := by
  cases he : (compute_add_remove show_differ dst src).1 with
  | nil => cases only_check <;> simp [copy_noarch_calls, he]
  | cons a t =>
    cases only_check with
    | true => simp [copy_noarch_calls, he]
    | false => simp [copy_noarch_calls, he]

/-- C5 witness: concrete runs of the call model. -/
theorem C5_witness :
    (copy_noarch_calls false false [pkgA] [] "dst-href").length ≤ 1
    ∧ copy_noarch_calls true false [pkgA] [] "dst-href" = [] := by
  exact ⟨(C5_atomic_modify false false [pkgA] [] "dst-href").1,
    (C5_atomic_modify true false [pkgA] [] "dst-href").2.2 rfl⟩

/-- C10: the remove list is non-empty only if the add list is non-empty, so
the guard `if packages_to_add` never silently discards a pending removal
(an empty call list in copy mode implies there was nothing to remove), and
every issued content-modification call carries a non-empty add list (the
engine never issues a remove-only modification). -/
theorem C10_remove_implies_add (only_check show_differ : Bool)
    (src dst : List PackageRecord) (href : String) :
    ((compute_add_remove show_differ dst src).2 ≠ [] →
      (compute_add_remove show_differ dst src).1 ≠ [])
    ∧ (only_check = false →
        copy_noarch_calls only_check show_differ src dst href = [] →
        (compute_add_remove show_differ dst src).2 = [])
    ∧ (∀ c, c ∈ copy_noarch_calls only_check show_differ src dst href →
        c.add ≠ []) := by
  have hlen := remove_length_le_add_length show_differ dst src
  have hne : (compute_add_remove show_differ dst src).2 ≠ [] →
      (compute_add_remove show_differ dst src).1 ≠ [] := by
    intro h2 h1
    rw [h1] at hlen
    exact h2 (List.length_eq_zero.mp (Nat.le_zero.mp hlen))
  refine ⟨hne, fun honly hcalls => ?_, fun c hc => ?_⟩
  · cases he : (compute_add_remove show_differ dst src).1 with
    | nil =>
      have h0 := hlen
      rw [he] at h0
      simpa using h0
    | cons a t => simp [copy_noarch_calls, he, honly] at hcalls
  · cases he : (compute_add_remove show_differ dst src).1 with
    | nil => simp [copy_noarch_calls, he] at hc
    | cons a t =>
      cases only_check with
      | true => simp [copy_noarch_calls, he] at hc
      | false =>
        simp [copy_noarch_calls, he] at hc
        subst hc
        simp

/-- C10 witness: the invariant applied at a concrete replacement scenario. -/
theorem C10_witness :
    ((compute_add_remove false [pkgAdest] [pkgA]).2 ≠ [] →
      (compute_add_remove false [pkgAdest] [pkgA]).1 ≠ [])
    ∧ copy_noarch_calls false false [] [] "dst-href" = [] := by
  refine ⟨(C10_remove_implies_add false false [pkgA] [pkgAdest] "dst-href").1, ?_⟩
  have h := (C10_remove_implies_add false false [] [] "dst-href").2.1 rfl
  decide

/-! ## Signature verification engine (`Exporter.check_rpms_signature`)

The inspector output parser: the Python code takes the first
stripped stdout line that starts with the literal `Signature`, then runs
`re.search` with the case-insensitive pattern
`(Signature[\s:]+)(.*Key ID )?(?P<key_id>(\()?\w+(\))?)` and reads the
`key_id` group.  The search below reproduces that pattern with Python
backtracking semantics.  Two modelling notes: the separator run `[\s:]+` is
taken maximally, because when the rest of the pattern fails after the
maximal run it also fails after every shorter run (the optional
`.*Key ID ` can absorb separator characters, and the key-id token can never
start with one); and the scanned text is a single line, so `.*` never meets
a newline. -/

/-- ASCII fragment of Python `\w`. -/
def isWordChar (c : Char) : Bool :=
  ('a' ≤ c && c ≤ 'z') || ('A' ≤ c && c ≤ 'Z') || ('0' ≤ c && c ≤ '9') || c == '_'

/-- ASCII fragment of `[\s:]`. -/
def isSpaceOrColon (c : Char) : Bool :=
  isPyWhitespace c || c == ':'

/-- Case-insensitive prefix match against a lowercase literal. -/
def ciStartsWith : List Char → List Char → Bool
  | [], _ => true
  | _ :: _, [] => false
  | p :: ps, c :: cs => (c.toLower == p) && ciStartsWith ps cs

/-- The key-id token `(\()?\w+(\))?` at the head of the input: the opening
parenthesis is consumed only when at least one word character follows (the
regex backtracks out of `(\()?` otherwise, and then fails on the
parenthesis); the word run is maximal; the closing parenthesis is consumed
when present.  Returns the text captured by the `key_id` group. -/
def matchKeyIdToken : List Char → Option String
  | '(' :: rest =>
    if (rest.takeWhile isWordChar).isEmpty then none
    else
      match rest.drop (rest.takeWhile isWordChar).length with
      | ')' :: _ => some (String.mk ('(' :: (rest.takeWhile isWordChar ++ [')'])))
      | _ => some (String.mk ('(' :: rest.takeWhile isWordChar))
  | cs =>
    if (cs.takeWhile isWordChar).isEmpty then none
    else
      match cs.drop (cs.takeWhile isWordChar).length with
      | ')' :: _ => some (String.mk (cs.takeWhile isWordChar ++ [')']))
      | _ => some (String.mk (cs.takeWhile isWordChar))

/-- The optional greedy group `(.*Key ID )?` followed by the key-id token:
the greedy `.*` selects the last occurrence of `Key ID ` (case-insensitive)
after which the token matches. -/
def keyIdAfterLabel (rest : List Char) : Option String :=
  ((List.range (rest.length + 1)).reverse).findSome? (fun j =>
    if ciStartsWith "key id ".data (rest.drop j) then
      matchKeyIdToken (rest.drop (j + 7))
    else none)

/-- One attempt of the signature pattern at the head of the input. -/
def sigPatternAt (cs : List Char) : Option String :=
  if ciStartsWith "signature".data cs then
    if ((cs.drop 9).takeWhile isSpaceOrColon).isEmpty then none
    else
      match keyIdAfterLabel
          ((cs.drop 9).drop ((cs.drop 9).takeWhile isSpaceOrColon).length) with
      | some key_id => some key_id
      | none =>
        matchKeyIdToken
          ((cs.drop 9).drop ((cs.drop 9).takeWhile isSpaceOrColon).length)
  else none

/-- `re.search`: try the pattern at each position, leftmost match wins. -/
def searchSignatureKeyId : List Char → Option String
  | [] => none
  | c :: rest =>
    match sigPatternAt (c :: rest) with
    | some key_id => some key_id
    | none => searchSignatureKeyId rest

/-- Result of `rpm -qip <path>` run through `sudo`. -/
structure InspectResult where
  exit_code : Int
  stdout : String
deriving Repr, DecidableEq

/-- Lines 346-351: the first stripped stdout line starting with the literal
`Signature` (case-sensitive `str.startswith`). -/
def findSignatureLine (stdout : String) : Option (List Char) :=
  ((splitOnNewline stdout.data).map trimChars).find?
    (fun line => startsWithChars "Signature".data line)

/-- The classification a single directory entry receives in the scan loop of
`check_rpms_signature` (lines 333-378).  `wrongKey` carries the extracted
lower-cased key id and the `signed_with_subkey` flag; the code consults the
known-subkeys map only to decide whether to emit the wrong-key log line, and
adds the package to the wrong-signature set in both cases. -/
inductive SigOutcome where
  | skippedNonRpm
  | inspectFailed
  | noSignatureLine
  | regexFailed
  | unsigned
  | accepted
  | wrongKey (key_id : String) (signed_with_subkey : Bool)
deriving Repr, DecidableEq

/-- Per-file classification: extension filter, inspector exit code,
signature-line lookup, regex extraction, then the `none`/authorized/subkey
branches.  `known_subkeys` models the `{owner key id: [subkey ids]}` map as
an association list. -/
def classifyPackage (key_ids_lower : List String)
    (known_subkeys : List (String × List String))
    (package_path : String) (res : InspectResult) : SigOutcome :=
  if !endsWithChars ".rpm".data package_path.data then .skippedNonRpm
  else if res.exit_code != 0 then .inspectFailed
  else
    match findSignatureLine res.stdout with
    | none => .noSignatureLine
    | some signature_line =>
      match searchSignatureKeyId signature_line with
      | none => .regexFailed
      | some key_id =>
        if listContainsSub "none".data (lowerStr key_id).data then .unsigned
        else if key_ids_lower.contains (lowerStr key_id) then .accepted
        else
          .wrongKey (lowerStr key_id)
            (known_subkeys.any (fun kv => kv.2.contains (lowerStr key_id)))

/-- The three violation sets accumulated per exported path (Python `set`s,
modelled as lists; the claims are membership statements). -/
structure ViolationReport where
  errored_packages : List String
  no_signature_packages : List String
  wrong_signature_packages : List String
deriving Repr, DecidableEq

/-- The scan loop of `check_rpms_signature`: every directory entry is
classified and dispatched into the violation sets; a wrong-key entry is the
package path joined with the extracted key id by a space
(`f'{package_path} {pkg_key_id}'`).  `inspect` maps a path to its
`rpm -qip` result (inspection is a function of the file). -/
def check_rpms_signature (key_ids_lower : List String)
    (known_subkeys : List (String × List String))
    (inspect : String → InspectResult) : List String → ViolationReport
  | [] => ⟨[], [], []⟩
  | package_path :: rest =>
    match classifyPackage key_ids_lower known_subkeys package_path
        (inspect package_path) with
    | .inspectFailed =>
      { check_rpms_signature key_ids_lower known_subkeys inspect rest with
        errored_packages := package_path ::
          (check_rpms_signature key_ids_lower known_subkeys inspect rest).errored_packages }
    | .regexFailed =>
      { check_rpms_signature key_ids_lower known_subkeys inspect rest with
        errored_packages := package_path ::
          (check_rpms_signature key_ids_lower known_subkeys inspect rest).errored_packages }
    | .unsigned =>
      { check_rpms_signature key_ids_lower known_subkeys inspect rest with
        no_signature_packages := package_path ::
          (check_rpms_signature key_ids_lower known_subkeys inspect rest).no_signature_packages }
    | .wrongKey key_id _ =>
      { check_rpms_signature key_ids_lower known_subkeys inspect rest with
        wrong_signature_packages := (package_path ++ " " ++ key_id) ::
          (check_rpms_signature key_ids_lower known_subkeys inspect rest).wrong_signature_packages }
    | _ => check_rpms_signature key_ids_lower known_subkeys inspect rest

/-- `key_ids_lower = [i.keyid.lower() for i in sign_keys]`. -/
def key_ids_lower_of (sign_keys : List String) : List String :=
  sign_keys.map lowerStr

/-- The extracted, lower-cased key id of one inspection result (the value
the scan compares against `none` and the authorized-key set). -/
def extract_key_id (res : InspectResult) : Option String :=
  if res.exit_code != 0 then none
  else
    match findSignatureLine res.stdout with
    | none => none
    | some signature_line =>
      match searchSignatureKeyId signature_line with
      | none => none
      | some key_id => some (lowerStr key_id)

example :
    searchSignatureKeyId
      "Signature   : RSA/SHA256, Mon 01 Nov 2021, Key ID 51d6647ec21ad6ea".data
      = some "51d6647ec21ad6ea" := by decide
example : searchSignatureKeyId "Signature   : (none)".data = some "(none)" := by decide
example : searchSignatureKeyId "Signature".data = none := by decide
example : searchSignatureKeyId "Signature : Key ID !!".data = some "Key" := by decide
example :
    extract_key_id ⟨0, "Name : bash\nSignature   : (none)\nBuild Date : x"⟩
      = some "(none)" := by decide
example : extract_key_id ⟨0, "Name : bash\nVersion : 4.4"⟩ = none := by decide
example : extract_key_id ⟨1, "Signature   : (none)"⟩ = none := by decide
example : searchSignatureKeyId "Signature:abc".data = some "abc" := by decide
example : searchSignatureKeyId "Signature : none Key ID abc".data = some "abc" := by
  decide
example : searchSignatureKeyId "Signature : (abc".data = some "(abc" := by decide
example : searchSignatureKeyId "Signature : (!!".data = none := by decide
example : searchSignatureKeyId "Signature : ()".data = none := by decide
example : searchSignatureKeyId "SignatureSignature : abc".data = some "abc" := by
  decide
example : searchSignatureKeyId "Signature :: (abc) tail".data = some "(abc)" := by
  decide
example : searchSignatureKeyId "signature : DSA/SHA1, key id 0AB1".data
    = some "0AB1" := by decide
example : searchSignatureKeyId "Signature : Key ID (abc)".data = some "(abc)" := by
  decide
example : searchSignatureKeyId "xx Signature : k1".data = some "k1" := by decide
example : searchSignatureKeyId "Signature : )abc".data = none := by decide
example : searchSignatureKeyId "Signature((none))".data = none := by decide
example : searchSignatureKeyId "Signature : Key ID ".data = some "Key" := by decide
example : searchSignatureKeyId "Signature : Key ID (x".data = some "(x" := by decide
example : searchSignatureKeyId "Signature : key id :b2".data = some "key" := by
  decide
example : searchSignatureKeyId "Signature  \t: a_b9)x".data = some "a_b9)" := by
  decide
example : searchSignatureKeyId "Signature-: abc".data = none := by decide

/-! ## Membership characterizations of the violation sets -/

/-- A path is in the errored set exactly when it was scanned and its own
classification is an inspection failure (non-zero exit or failed regex). -/
theorem mem_errored_iff (keys : List String) (subs : List (String × List String))
    (inspect : String → InspectResult) (files : List String) (p : String) :
    p ∈ (check_rpms_signature keys subs inspect files).errored_packages ↔
      p ∈ files ∧ (classifyPackage keys subs p (inspect p) = .inspectFailed
        ∨ classifyPackage keys subs p (inspect p) = .regexFailed) := by
  induction files with
  | nil => simp [check_rpms_signature]
  | cons f rest ih =>
    cases hcl : classifyPackage keys subs f (inspect f) <;>
      rcases eq_or_ne p f with rfl | hpf <;>
      simp_all [check_rpms_signature]

/-- A path is in the unsigned set exactly when it was scanned and its own
classification is `unsigned`. -/
theorem mem_unsigned_iff (keys : List String) (subs : List (String × List String))
    (inspect : String → InspectResult) (files : List String) (p : String) :
    p ∈ (check_rpms_signature keys subs inspect files).no_signature_packages ↔
      p ∈ files ∧ classifyPackage keys subs p (inspect p) = .unsigned := by
  induction files with
  | nil => simp [check_rpms_signature]
  | cons f rest ih =>
    cases hcl : classifyPackage keys subs f (inspect f) <;>
      rcases eq_or_ne p f with rfl | hpf <;>
      simp_all [check_rpms_signature]

/-- An entry of the wrong-signature set is exactly a scanned path classified
`wrongKey`, joined with its extracted key id. -/
theorem mem_wrong_iff (keys : List String) (subs : List (String × List String))
    (inspect : String → InspectResult) (files : List String) (s : String) :
    s ∈ (check_rpms_signature keys subs inspect files).wrong_signature_packages ↔
      ∃ q, q ∈ files ∧ ∃ k b,
        classifyPackage keys subs q (inspect q) = .wrongKey k b
        ∧ s = q ++ " " ++ k := by
  induction files with
  | nil => simp [check_rpms_signature]
  | cons f rest ih =>
    cases hcl : classifyPackage keys subs f (inspect f)
    case wrongKey k b =>
      have hrep : (check_rpms_signature keys subs inspect
            (f :: rest)).wrong_signature_packages
          = (f ++ " " ++ k) :: (check_rpms_signature keys subs inspect
            rest).wrong_signature_packages := by
        simp [check_rpms_signature, hcl]
      rw [hrep]
      constructor
      · intro hmem
        rcases List.mem_cons.mp hmem with heq | hmem2
        · exact ⟨f, List.mem_cons_self _ _, k, b, hcl, heq⟩
        · rcases ih.mp hmem2 with ⟨q, hq, kk, bb, hkk, hs⟩
          exact ⟨q, List.mem_cons_of_mem _ hq, kk, bb, hkk, hs⟩
      · rintro ⟨q, hq, kk, bb, hkk, hs⟩
        rcases List.mem_cons.mp hq with rfl | hq2
        · rw [hcl] at hkk
          injection hkk with hk1 hk2
          subst hk1
          rw [hs]
          exact List.mem_cons_self _ _
        · exact List.mem_cons_of_mem _ (ih.mpr ⟨q, hq2, kk, bb, hkk, hs⟩)
    all_goals {
      have hrep : (check_rpms_signature keys subs inspect
            (f :: rest)).wrong_signature_packages
          = (check_rpms_signature keys subs inspect
            rest).wrong_signature_packages := by
        simp [check_rpms_signature, hcl]
      rw [hrep, ih]
      constructor
      · rintro ⟨q, hq, kk, bb, hkk, hs⟩
        exact ⟨q, List.mem_cons_of_mem _ hq, kk, bb, hkk, hs⟩
      · rintro ⟨q, hq, kk, bb, hkk, hs⟩
        rcases List.mem_cons.mp hq with rfl | hq2
        · rw [hcl] at hkk
          cases hkk
        · exact ⟨q, hq2, kk, bb, hkk, hs⟩
    }

/-- Classification in terms of the extracted, lower-cased key id. -/
theorem classify_of_extract (keys : List String)
    (subs : List (String × List String)) (path : String)
    (res : InspectResult) (kid : String)
    (hrpm : endsWithChars ".rpm".data path.data = true)
    (hext : extract_key_id res = some kid) :
    classifyPackage keys subs path res =
      (if listContainsSub "none".data kid.data then .unsigned
       else if keys.contains kid then .accepted
       else .wrongKey kid (subs.any (fun kv => kv.2.contains kid))) := by
  by_cases he : (res.exit_code != 0) = true
  · simp [extract_key_id, he] at hext
  · rcases hline : findSignatureLine res.stdout with _ | line
    · simp [extract_key_id, he, hline] at hext
    · rcases hsearch : searchSignatureKeyId line with _ | kid0
      · simp [extract_key_id, he, hline, hsearch] at hext
      · simp only [extract_key_id, he, hline, hsearch, if_false] at hext
        have hkid : lowerStr kid0 = kid := by
          simpa using hext
        simp [classifyPackage, hrpm, he, hline, hsearch, hkid]

/-! ## Claim theorems about signature verification -/

/-- The inspector result of a package signed with a delegated subkey
(`2222bbbb`), whose owner key (`1111aaaa`) is the authorized key. -/
def inspectSubkeySigned : String → InspectResult := fun _ =>
  ⟨0, "Name        : tree\nSignature   : RSA/SHA256, Mon 01 Nov 2021, Key ID 2222bbbb"⟩

/-- C1: the code contradicts the claim (and its own subkey-check comment):
a package whose key id is absent from the authorized set but present in the
subkey list of an authorized owner key is still added to the
wrong-key-signed set — only the log line is guarded by the subkey check,
the `wrong_signature_packages.add` is not.  Evaluated at the failing
input. -/
theorem C1_subkey_recorded :
    classifyPackage ["1111aaaa"] [("1111aaaa", ["2222bbbb"])] "pkg.rpm"
        (inspectSubkeySigned "pkg.rpm")
      = .wrongKey "2222bbbb" true
    ∧ ("pkg.rpm" ++ " " ++ "2222bbbb") ∈
        (check_rpms_signature ["1111aaaa"] [("1111aaaa", ["2222bbbb"])]
          inspectSubkeySigned ["pkg.rpm"]).wrong_signature_packages := by
  decide

/-- The inspector result of a package whose output holds no line starting
with `Signature`. -/
def inspectNoSigLine : String → InspectResult := fun _ =>
  ⟨0, "Name        : bash\nVersion     : 4.4"⟩

/-- C2 counterexample: a scanned package file whose inspector output has no
`Signature` line is NOT added to the inspection-failed set — the scan only
logs and moves on, leaving the whole report empty. -/
theorem C2_counterexample :
    findSignatureLine (inspectNoSigLine "pkg2.rpm").stdout = none
    ∧ check_rpms_signature ["1111aaaa"] [] inspectNoSigLine ["pkg2.rpm"]
        = ⟨[], [], []⟩ := by
  decide

/-- C2 (amended): a scanned package file whose inspector output has no line
beginning with `Signature` is added to NO violation set of the report; the
failure is only logged. -/
theorem C2_no_signature_line_unrecorded (keys : List String)
    (subs : List (String × List String)) (inspect : String → InspectResult)
    (files : List String) (path : String) (hmem : path ∈ files)
    (hcl : classifyPackage keys subs path (inspect path) = .noSignatureLine) :
    path ∉ (check_rpms_signature keys subs inspect files).errored_packages
    ∧ path ∉ (check_rpms_signature keys subs inspect files).no_signature_packages
    ∧ ¬∃ k b, classifyPackage keys subs path (inspect path) = .wrongKey k b
        ∧ (path ++ " " ++ k) ∈
          (check_rpms_signature keys subs inspect files).wrong_signature_packages := by
  refine ⟨fun h => ?_, fun h => ?_, fun h => ?_⟩
  · rcases (mem_errored_iff keys subs inspect files path).mp h with ⟨_, h1 | h1⟩ <;>
      rw [hcl] at h1 <;> cases h1
  · have h2 := ((mem_unsigned_iff keys subs inspect files path).mp h).2
    rw [hcl] at h2
    cases h2
  · rcases h with ⟨k, b, hk, _⟩
    rw [hcl] at hk
    cases hk

/-- C2 witness. -/
theorem C2_witness :
    "pkg2.rpm" ∉ (check_rpms_signature ["1111aaaa"] [] inspectNoSigLine
      ["pkg2.rpm"]).errored_packages := by
  exact (C2_no_signature_line_unrecorded ["1111aaaa"] [] inspectNoSigLine
    ["pkg2.rpm"] "pkg2.rpm" (by decide) (by decide)).1

/-- The inspector result of an unsigned package: rpm prints
`Signature   : (none)` and the extracted key id is `(none)`, not the bare
literal `none`. -/
def inspectParenNone : String → InspectResult := fun _ =>
  ⟨0, "Signature   : (none)"⟩

/-- C6 counterexample: the code tests `'none' in pkg_key_id` (substring),
not equality — the real unsigned output yields extracted id `(none)`, which
differs from the literal `none` yet is classified unsigned. -/
theorem C6_counterexample :
    extract_key_id (inspectParenNone "pkg3.rpm") = some "(none)"
    ∧ ("(none)" : String) ≠ "none"
    ∧ (check_rpms_signature ["1111aaaa"] [] inspectParenNone
        ["pkg3.rpm"]).no_signature_packages = ["pkg3.rpm"] := by
  decide

/-- C6 (amended): a scanned package file is added to the unsigned set
exactly when its extracted, lower-cased key id CONTAINS the token `none` as
a substring; an unsigned file is never also recorded in the wrong-key set,
and a file whose key id does not contain `none` is never recorded as
unsigned. -/
theorem C6_unsigned_contains_none (keys : List String)
    (subs : List (String × List String)) (inspect : String → InspectResult)
    (files : List String) (path kid : String) (hmem : path ∈ files)
    (hrpm : endsWithChars ".rpm".data path.data = true)
    (hext : extract_key_id (inspect path) = some kid) :
    ((path ∈ (check_rpms_signature keys subs inspect
        files).no_signature_packages)
      ↔ listContainsSub "none".data kid.data = true)
    ∧ (path ∈ (check_rpms_signature keys subs inspect
        files).no_signature_packages →
        ¬∃ k b, classifyPackage keys subs path (inspect path) = .wrongKey k b
          ∧ (path ++ " " ++ k) ∈ (check_rpms_signature keys subs inspect
            files).wrong_signature_packages)
    ∧ (listContainsSub "none".data kid.data = false →
        path ∉ (check_rpms_signature keys subs inspect
          files).no_signature_packages) := by
  have hcl := classify_of_extract keys subs path (inspect path) kid hrpm hext
  have hiff : path ∈ (check_rpms_signature keys subs inspect
      files).no_signature_packages ↔ listContainsSub "none".data kid.data = true := by
    rw [mem_unsigned_iff]
    constructor
    · rintro ⟨_, hq⟩
      rw [hcl] at hq
      by_contra hnone
      rw [Bool.not_eq_true] at hnone
      rw [hnone] at hq
      simp at hq
      split at hq <;> simp at hq
    · intro h
      refine ⟨hmem, ?_⟩
      rw [hcl, h]
      simp
  refine ⟨hiff, fun h => ?_, fun hnone h => ?_⟩
  · have hu := ((mem_unsigned_iff keys subs inspect files path).mp h).2
    rintro ⟨k, b, hk, _⟩
    rw [hu] at hk
    cases hk
  · rw [hiff] at h
    rw [hnone] at h
    cases h

/-- C6 witness: the amended criterion applied at the `(none)` scenario. -/
theorem C6_witness :
    "pkg3.rpm" ∈ (check_rpms_signature ["1111aaaa"] [] inspectParenNone
      ["pkg3.rpm"]).no_signature_packages := by
  exact (C6_unsigned_contains_none ["1111aaaa"] [] inspectParenNone
    ["pkg3.rpm"] "pkg3.rpm" "(none)" (by decide) (by decide) (by decide)).1.mpr
    (by decide)

/-- C7: each scanned file lands in exactly one of the four outcomes —
membership in each violation set is decided by the file's own
classification (so the scan never stops early: every listed file is
classified), and the three sets plus acceptance are mutually exclusive. -/
theorem C7_classification_exactly_one (keys : List String)
    (subs : List (String × List String)) (inspect : String → InspectResult)
    (files : List String) (path : String) (hmem : path ∈ files) :
    ((path ∈ (check_rpms_signature keys subs inspect files).errored_packages
        ↔ (classifyPackage keys subs path (inspect path) = .inspectFailed
          ∨ classifyPackage keys subs path (inspect path) = .regexFailed))
      ∧ (path ∈ (check_rpms_signature keys subs inspect
          files).no_signature_packages
        ↔ classifyPackage keys subs path (inspect path) = .unsigned)
      ∧ ((∃ k b, classifyPackage keys subs path (inspect path) = .wrongKey k b
          ∧ (path ++ " " ++ k) ∈ (check_rpms_signature keys subs inspect
            files).wrong_signature_packages)
        ↔ ∃ k b, classifyPackage keys subs path (inspect path) = .wrongKey k b))
    ∧ ((path ∈ (check_rpms_signature keys subs inspect files).errored_packages
        ∧ path ∉ (check_rpms_signature keys subs inspect
          files).no_signature_packages
        ∧ ¬∃ k b, classifyPackage keys subs path (inspect path) = .wrongKey k b)
      ∨ (path ∈ (check_rpms_signature keys subs inspect
          files).no_signature_packages
        ∧ path ∉ (check_rpms_signature keys subs inspect files).errored_packages
        ∧ ¬∃ k b, classifyPackage keys subs path (inspect path) = .wrongKey k b)
      ∨ ((∃ k b, classifyPackage keys subs path (inspect path) = .wrongKey k b
          ∧ (path ++ " " ++ k) ∈ (check_rpms_signature keys subs inspect
            files).wrong_signature_packages)
        ∧ path ∉ (check_rpms_signature keys subs inspect files).errored_packages
        ∧ path ∉ (check_rpms_signature keys subs inspect
          files).no_signature_packages)
      ∨ (path ∉ (check_rpms_signature keys subs inspect files).errored_packages
        ∧ path ∉ (check_rpms_signature keys subs inspect
          files).no_signature_packages
        ∧ ¬∃ k b, classifyPackage keys subs path (inspect path)
            = .wrongKey k b)) := by
  have hE := mem_errored_iff keys subs inspect files path
  have hU := mem_unsigned_iff keys subs inspect files path
  have hW : (∃ k b, classifyPackage keys subs path (inspect path) = .wrongKey k b
      ∧ (path ++ " " ++ k) ∈ (check_rpms_signature keys subs inspect
        files).wrong_signature_packages)
      ↔ ∃ k b, classifyPackage keys subs path (inspect path) = .wrongKey k b := by
    constructor
    · rintro ⟨k, b, hk, _⟩
      exact ⟨k, b, hk⟩
    · rintro ⟨k, b, hk⟩
      exact ⟨k, b, hk, (mem_wrong_iff keys subs inspect files _).mpr
        ⟨path, hmem, k, b, hk, rfl⟩⟩
  refine ⟨⟨?_, ?_, hW⟩, ?_⟩
  · rw [hE]
    simp [hmem]
  · rw [hU]
    simp [hmem]
  · cases hcl : classifyPackage keys subs path (inspect path)
    case wrongKey k b =>
      have hw2 : (path ++ " " ++ k) ∈ (check_rpms_signature keys subs inspect
          files).wrong_signature_packages :=
        (mem_wrong_iff keys subs inspect files _).mpr ⟨path, hmem, k, b, hcl, rfl⟩
      refine Or.inr (Or.inr (Or.inl ⟨⟨k, b, rfl, hw2⟩, fun h => ?_, fun h => ?_⟩))
      · rcases hE.mp h with ⟨_, h1 | h1⟩ <;> (rw [hcl] at h1; cases h1)
      · have h2 := (hU.mp h).2
        rw [hcl] at h2
        cases h2
    all_goals {
      simp only [hcl] at hE hU hW
      simp [hE, hU, hW, hmem, hcl]
    }

/-! ## The export error log (`~/export.err`)

The file content is modelled as `Option String` (`none` = the file does not
exist). -/

/-- Lines 92-95 of `Exporter.__init__`: an existing error file is removed
when the exporter is constructed (`os.remove`), so a run starts with no
error file. -/
def exporter_init_error_file (error_file : Option String) : Option String :=
  match error_file with
  | some _ => none
  | none => none

/-- Lines 385-394: the header/content lines written for a non-empty
report. -/
def report_lines (rep : ViolationReport) : List String :=
  (if !rep.errored_packages.isEmpty then
    "Packages that we cannot get information about:" :: rep.errored_packages
  else [])
  ++ (if !rep.no_signature_packages.isEmpty then
    "Packages without signature:" :: rep.no_signature_packages
  else [])
  ++ (if !rep.wrong_signature_packages.isEmpty then
    "Packages with wrong signature:" :: rep.wrong_signature_packages
  else [])

/-- Lines 381-384 and 395-396: mode `wt` when the file does not exist,
mode `at` (append) when it does. -/
def write_error_report (error_file : Option String) (text : String) :
    Option String :=
  match error_file with
  | none => some text
  | some old => some (old ++ text)

/-- Lines 380-396: the error file is written only when some violation set
is non-empty; the text is the newline-join of the report lines. -/
def write_check_result (error_file : Option String) (rep : ViolationReport) :
    Option String :=
  if !rep.errored_packages.isEmpty || !rep.no_signature_packages.isEmpty
      || !rep.wrong_signature_packages.isEmpty then
    write_error_report error_file (String.intercalate "\n" (report_lines rep))
  else error_file

/-- One run of the exporter script over the error file: construct the
`Exporter` (which removes any existing file), then perform the
`check_rpms_signature` writes of that run in order. -/
def export_run (error_file : Option String) (reports : List ViolationReport) :
    Option String :=
  reports.foldl write_check_result (exporter_init_error_file error_file)

def repRun1 : ViolationReport := ⟨["a.rpm"], [], []⟩

def repRun2 : ViolationReport := ⟨["b.rpm"], [], []⟩

/-- C3 counterexample: two separate runs, each producing a violation; the
second run's constructor deletes the first run's file, so afterwards only
the second run's content exists — the first run's line `a.rpm` is gone. -/
theorem C3_counterexample :
    export_run (export_run none [repRun1]) [repRun2]
      = some "Packages that we cannot get information about:\nb.rpm"
    ∧ listContainsSub "a.rpm".data
        "Packages that we cannot get information about:\nb.rpm".data = false := by
  decide

/-- C3 (amended): the error log accumulates (appends) across successive
verification writes WITHIN one run, but a new run first removes the
existing file, so after two separate runs only the second run's content
remains. -/
theorem C3_within_run_append (error_file : Option String) :
    export_run error_file [repRun1, repRun2]
      = some ("Packages that we cannot get information about:\na.rpm"
        ++ "Packages that we cannot get information about:\nb.rpm")
    ∧ export_run (export_run error_file [repRun1]) [repRun2]
      = some "Packages that we cannot get information about:\nb.rpm" := by
  cases error_file <;> exact ⟨rfl, rfl⟩

/-- C3 witness: the amended statement at a concrete pre-existing file. -/
theorem C3_witness :
    export_run (export_run (some "old content") [repRun1]) [repRun2]
      = some "Packages that we cannot get information about:\nb.rpm" := by
  exact (C3_within_run_append (export_run (some "old content") [repRun1])).2

/-! ## Reconciliation pairing over a platform export
(`export_repos_from_pulp` lines 430-451 and
`prepare_and_execute_async_tasks` lines 287-303) -/

/-- The repository rows read from the database. -/
structure Repo where
  id : Nat
  name : String
  arch : String
  debug : Bool
  production : Bool
  export_path : String
  pulp_href : String
deriving Repr, DecidableEq

/-- `Exporter.get_full_repo_name`. -/
def get_full_repo_name (repo : Repo) : String :=
  repo.name ++ "-" ++ (if repo.debug then "debuginfo-" else "") ++ repo.arch

/-- Line 437-439: a repository is skipped when a repo-id filter is given and
does not list it, or when it is not a production repository. -/
def repoSkipped (repo_ids : Option (List Nat)) (repo : Repo) : Bool :=
  (match repo_ids with
   | some ids => !ids.contains repo.id
   | none => false) || !repo.production

/-- Python dict insertion (`d[k] = v`): overwrite the value of an existing
key in place, otherwise append. -/
def dictInsert (d : List (String × String × Bool)) (k : String)
    (v : String × Bool) : List (String × String × Bool) :=
  if d.any (fun kv => kv.1 == k) then
    d.map (fun kv => if kv.1 == k then (k, v) else kv)
  else d ++ [(k, v)]

/-- Lines 436-444: one loop step filling `repos_x86_64` and `repos_ppc64le`
(keyed by full repo name, value `(pulp_href, debug)`). -/
def collectStep (repo_ids : Option (List Nat))
    (acc : List (String × String × Bool) × List (String × String × Bool))
    (repo : Repo) :
    List (String × String × Bool) × List (String × String × Bool) :=
  if repoSkipped repo_ids repo then acc
  else
    ((if repo.arch == "x86_64" then
        dictInsert acc.1 (get_full_repo_name repo) (repo.pulp_href, repo.debug)
      else acc.1),
     (if repo.arch == "ppc64le" then
        dictInsert acc.2 (get_full_repo_name repo) (repo.pulp_href, repo.debug)
      else acc.2))

/-- The `repos_x86_64` / `repos_ppc64le` dictionaries accumulated over the
repositories of the exported platforms (the code shares both dictionaries
across the whole platform loop and pairs them once at the end). -/
def collectArchDicts (repo_ids : Option (List Nat)) (repos : List Repo) :
    List (String × String × Bool) × List (String × String × Bool) :=
  repos.foldl (collectStep repo_ids) ([], [])

/-- Inner loop of `prepare_and_execute_async_tasks`: the destinations paired
with one source, skipping mismatched debug flags. -/
def pairsForSource (s : String × String × Bool) :
    List (String × String × Bool) → List (String × String)
  | [] => []
  | d :: rest =>
    (if s.2.2 != d.2.2 then [] else [(s.1, d.1)]) ++ pairsForSource s rest

/-- Both loops of `prepare_and_execute_async_tasks`: every source paired
with every debug-matching destination. -/
def crossPairs : List (String × String × Bool) →
    List (String × String × Bool) → List (String × String)
  | [], _ => []
  | s :: rest, dsts => pairsForSource s dsts ++ crossPairs rest dsts

/-- The `(source, destination)` reconciliation pairs scheduled by
`prepare_and_execute_async_tasks` (empty when `copy_noarch_packages` is
off, lines 284-286). -/
def reconciliationPairs (copy_noarch_packages : Bool)
    (srcs dsts : List (String × String × Bool)) : List (String × String) :=
  if copy_noarch_packages then crossPairs srcs dsts else []

/-- Entries produced by `dictInsert` are the inserted pair or pairs already
present. -/
theorem dictInsert_mem (d : List (String × String × Bool)) (k : String)
    (v : String × Bool) (e : String × String × Bool)
    (he : e ∈ dictInsert d k v) : e = (k, v) ∨ e ∈ d := by
  unfold dictInsert at he
  by_cases hk : (d.any (fun kv => kv.1 == k)) = true
  · simp only [hk, if_true] at he
    rcases List.mem_map.mp he with ⟨kv, hkv, heq⟩
    by_cases hkk : (kv.1 == k) = true
    · rw [hkk] at heq
      simp at heq
      exact Or.inl heq.symm
    · rw [if_neg] at heq
      · exact Or.inr (heq ▸ hkv)
      · simp only [hkk]
        simp
  · simp only [hk, if_false] at he
    rcases List.mem_append.mp he with h | h
    · exact Or.inr h
    · simp at h
      exact Or.inl h

/-- The `repos_x86_64` dictionary holds only non-skipped `x86_64`
repositories of the scanned list, the `repos_ppc64le` dictionary only
non-skipped `ppc64le` ones. -/
theorem collect_fold_sound (repo_ids : Option (List Nat)) :
    ∀ (repos : List Repo)
      (acc : List (String × String × Bool) × List (String × String × Bool)),
      (∀ e, e ∈ (List.foldl (collectStep repo_ids) acc repos).1 →
        (∃ r, r ∈ repos ∧ repoSkipped repo_ids r = false ∧ r.arch = "x86_64"
          ∧ e = (get_full_repo_name r, r.pulp_href, r.debug)) ∨ e ∈ acc.1)
      ∧ (∀ e, e ∈ (List.foldl (collectStep repo_ids) acc repos).2 →
        (∃ r, r ∈ repos ∧ repoSkipped repo_ids r = false ∧ r.arch = "ppc64le"
          ∧ e = (get_full_repo_name r, r.pulp_href, r.debug)) ∨ e ∈ acc.2) := by
  intro repos
  induction repos with
  | nil => intro acc; simp
  | cons r rest ih =>
    intro acc
    have hstep1 : ∀ e, e ∈ (collectStep repo_ids acc r).1 →
        (repoSkipped repo_ids r = false ∧ r.arch = "x86_64"
          ∧ e = (get_full_repo_name r, r.pulp_href, r.debug)) ∨ e ∈ acc.1 := by
      intro e he
      unfold collectStep at he
      by_cases hskip : repoSkipped repo_ids r = true
      · simp only [hskip, if_true] at he
        exact Or.inr he
      · have hskip2 : repoSkipped repo_ids r = false := by
          simpa using hskip
        simp only [hskip2, Bool.false_eq_true, if_false] at he
        by_cases harch : (r.arch == "x86_64") = true
        · simp only [harch, if_true] at he
          rcases dictInsert_mem _ _ _ _ he with heq | hin
          · exact Or.inl ⟨hskip2, by simpa using harch, heq⟩
          · exact Or.inr hin
        · simp only [harch, if_false] at he
          exact Or.inr he
    have hstep2 : ∀ e, e ∈ (collectStep repo_ids acc r).2 →
        (repoSkipped repo_ids r = false ∧ r.arch = "ppc64le"
          ∧ e = (get_full_repo_name r, r.pulp_href, r.debug)) ∨ e ∈ acc.2 := by
      intro e he
      unfold collectStep at he
      by_cases hskip : repoSkipped repo_ids r = true
      · simp only [hskip, if_true] at he
        exact Or.inr he
      · have hskip2 : repoSkipped repo_ids r = false := by
          simpa using hskip
        simp only [hskip2, Bool.false_eq_true, if_false] at he
        by_cases harch : (r.arch == "ppc64le") = true
        · simp only [harch, if_true] at he
          rcases dictInsert_mem _ _ _ _ he with heq | hin
          · exact Or.inl ⟨hskip2, by simpa using harch, heq⟩
          · exact Or.inr hin
        · simp only [harch, if_false] at he
          exact Or.inr he
    constructor
    · intro e he
      simp only [List.foldl_cons] at he
      rcases (ih (collectStep repo_ids acc r)).1 e he with ⟨q, hq, h1, h2, h3⟩ | hacc
      · exact Or.inl ⟨q, List.mem_cons_of_mem _ hq, h1, h2, h3⟩
      · rcases hstep1 e hacc with ⟨h1, h2, h3⟩ | hin
        · exact Or.inl ⟨r, List.mem_cons_self _ _, h1, h2, h3⟩
        · exact Or.inr hin
    · intro e he
      simp only [List.foldl_cons] at he
      rcases (ih (collectStep repo_ids acc r)).2 e he with ⟨q, hq, h1, h2, h3⟩ | hacc
      · exact Or.inl ⟨q, List.mem_cons_of_mem _ hq, h1, h2, h3⟩
      · rcases hstep2 e hacc with ⟨h1, h2, h3⟩ | hin
        · exact Or.inl ⟨r, List.mem_cons_self _ _, h1, h2, h3⟩
        · exact Or.inr hin

/-- Completeness of the inner pairing loop. -/
theorem pairsForSource_mem_of (s : String × String × Bool)
    (dsts : List (String × String × Bool)) (d : String × String × Bool)
    (hd : d ∈ dsts) (heq : s.2.2 = d.2.2) :
    (s.1, d.1) ∈ pairsForSource s dsts := by
  induction dsts with
  | nil => cases hd
  | cons d0 rest ih =>
    rcases List.mem_cons.mp hd with rfl | hd2
    · have hb : (s.2.2 != d.2.2) = false := by
        rw [heq]
        simp
      simp [pairsForSource, hb]
    · exact List.mem_append.mpr (Or.inr (ih hd2))

/-- Soundness of the inner pairing loop. -/
theorem pairsForSource_sound (s : String × String × Bool)
    (dsts : List (String × String × Bool)) (pr : String × String)
    (h : pr ∈ pairsForSource s dsts) :
    ∃ d, d ∈ dsts ∧ s.2.2 = d.2.2 ∧ pr = (s.1, d.1) := by
  induction dsts with
  | nil => simp [pairsForSource] at h
  | cons d0 rest ih =>
    rcases List.mem_append.mp h with h1 | h1
    · by_cases hb : (s.2.2 != d0.2.2) = true
      · rw [if_pos hb] at h1
        cases h1
      · have hb2 : (s.2.2 != d0.2.2) = false := by simpa using hb
        rw [if_neg (by simp [hb2])] at h1
        simp at h1
        exact ⟨d0, List.mem_cons_self _ _, by simpa using hb2, h1⟩
    · rcases ih h1 with ⟨d, hd, he, hp⟩
      exact ⟨d, List.mem_cons_of_mem _ hd, he, hp⟩

/-- Completeness of the double pairing loop. -/
theorem crossPairs_mem_of (srcs dsts : List (String × String × Bool))
    (s d : String × String × Bool) (hs : s ∈ srcs) (hd : d ∈ dsts)
    (heq : s.2.2 = d.2.2) : (s.1, d.1) ∈ crossPairs srcs dsts := by
  induction srcs with
  | nil => cases hs
  | cons s0 rest ih =>
    rcases List.mem_cons.mp hs with rfl | hs2
    · exact List.mem_append.mpr (Or.inl (pairsForSource_mem_of s dsts d hd heq))
    · exact List.mem_append.mpr (Or.inr (ih hs2))

/-- Soundness of the double pairing loop. -/
theorem crossPairs_sound (srcs dsts : List (String × String × Bool))
    (pr : String × String) (h : pr ∈ crossPairs srcs dsts) :
    ∃ s, s ∈ srcs ∧ ∃ d, d ∈ dsts ∧ s.2.2 = d.2.2 ∧ pr = (s.1, d.1) := by
  induction srcs with
  | nil => simp [crossPairs] at h
  | cons s0 rest ih =>
    rcases List.mem_append.mp h with h1 | h1
    · rcases pairsForSource_sound s0 dsts pr h1 with ⟨d, hd, he, hp⟩
      exact ⟨s0, List.mem_cons_self _ _, d, hd, he, hp⟩
    · rcases ih h1 with ⟨s, hsm, d, hd, he, hp⟩
      exact ⟨s, List.mem_cons_of_mem _ hsm, d, hd, he, hp⟩

/-- C8 counterexample: a platform with an `x86_64` source and an `aarch64`
repository (non-`x86_64`, non-`src`, same debug flag, production) produces
NO reconciliation pair — only `ppc64le` repositories are collected as
destinations, so the claim that every non-`x86_64`, non-`src` repository is
paired fails. -/
theorem C8_counterexample :
    (⟨2, "base", "aarch64", false, true, "p2", "h2"⟩ : Repo).arch ≠ "x86_64"
    ∧ (⟨2, "base", "aarch64", false, true, "p2", "h2"⟩ : Repo).arch ≠ "src"
    ∧ (⟨2, "base", "aarch64", false, true, "p2", "h2"⟩ : Repo).debug
      = (⟨1, "base", "x86_64", false, true, "p1", "h1"⟩ : Repo).debug
    ∧ reconciliationPairs true
        (collectArchDicts none
          [⟨1, "base", "x86_64", false, true, "p1", "h1"⟩,
           ⟨2, "base", "aarch64", false, true, "p2", "h2"⟩]).1
        (collectArchDicts none
          [⟨1, "base", "x86_64", false, true, "p1", "h1"⟩,
           ⟨2, "base", "aarch64", false, true, "p2", "h2"⟩]).2
      = [] := by
  decide

/-- C8 (amended): over the repositories scanned by the platform-export
loop, every collected `x86_64` repository is paired as a source with every
collected `ppc64le` repository (not: every non-`x86_64`, non-`src` one)
sharing its debug flag; every scheduled pair arises from one production
`x86_64` source and one production `ppc64le` destination with equal debug
flags, and no mismatched-debug pair is ever scheduled. -/
theorem C8_pairing (repo_ids : Option (List Nat)) (repos : List Repo) :
    (∀ s d, s ∈ (collectArchDicts repo_ids repos).1 →
      d ∈ (collectArchDicts repo_ids repos).2 → s.2.2 = d.2.2 →
      (s.1, d.1) ∈ reconciliationPairs true (collectArchDicts repo_ids repos).1
        (collectArchDicts repo_ids repos).2)
    ∧ (∀ pr, pr ∈ reconciliationPairs true (collectArchDicts repo_ids repos).1
        (collectArchDicts repo_ids repos).2 →
      ∃ rs, rs ∈ repos ∧ rs.arch = "x86_64" ∧ rs.production = true
        ∧ ∃ rd, rd ∈ repos ∧ rd.arch = "ppc64le" ∧ rd.production = true
          ∧ rs.debug = rd.debug
          ∧ pr = (get_full_repo_name rs, get_full_repo_name rd)) := by
  constructor
  · intro s d hs hd heq
    simpa [reconciliationPairs] using
      crossPairs_mem_of (collectArchDicts repo_ids repos).1
        (collectArchDicts repo_ids repos).2 s d hs hd heq
  · intro pr hpr
    simp only [reconciliationPairs, if_true] at hpr
    rcases crossPairs_sound _ _ pr hpr with ⟨s, hs, d, hd, hdebug, hp⟩
    rcases (collect_fold_sound repo_ids repos ([], [])).1 s hs with
      ⟨rs, hrs, hskips, harchs, heqs⟩ | habs
    · rcases (collect_fold_sound repo_ids repos ([], [])).2 d hd with
        ⟨rd, hrd, hskipd, harchd, heqd⟩ | habs2
      · have hprod_s : rs.production = true := by
          unfold repoSkipped at hskips
          rcases Bool.or_eq_false_iff.mp hskips with ⟨_, h2⟩
          simpa using h2
        have hprod_d : rd.production = true := by
          unfold repoSkipped at hskipd
          rcases Bool.or_eq_false_iff.mp hskipd with ⟨_, h2⟩
          simpa using h2
        refine ⟨rs, hrs, harchs, hprod_s, rd, hrd, harchd, hprod_d, ?_, ?_⟩
        · rw [heqs, heqd] at hdebug
          simpa using hdebug
        · rw [hp, heqs, heqd]
      · cases habs2
    · cases habs

/-- C8 witness: a concrete debug-matched pair is scheduled. -/
theorem C8_witness :
    ("base-x86_64", "base-ppc64le") ∈ reconciliationPairs true
      (collectArchDicts none
        [⟨1, "base", "x86_64", false, true, "p1", "h1"⟩,
         ⟨3, "base", "ppc64le", false, true, "p3", "h3"⟩]).1
      (collectArchDicts none
        [⟨1, "base", "x86_64", false, true, "p1", "h1"⟩,
         ⟨3, "base", "ppc64le", false, true, "p3", "h3"⟩]).2 := by
  exact (C8_pairing none
    [⟨1, "base", "x86_64", false, true, "p1", "h1"⟩,
     ⟨3, "base", "ppc64le", false, true, "p3", "h3"⟩]).1
    ("base-x86_64", "h1", false) ("base-ppc64le", "h3", false)
    (by decide) (by decide) (by decide)

/-! ## Ownership handling of exported paths
(`export_repos_from_pulp` lines 459-472 and `main` lines 598-618)

The per-path state tracks the owner of the exported tree and which steps
ran.  Steps may raise (`raised` carries the state at the time of the
exception); `runTryFinally` is Python `try`/`finally`: the `finally` step
runs on the state reached in either case, and an exception of the body
still propagates afterwards. -/

structure PathState where
  owner : String
  snippets_removed : Bool
  signature_checked : Bool
  metadata_regenerated : Bool
  errata_updated : Bool
  repomd_signed : Bool
deriving Repr, DecidableEq

inductive StepResult (σ : Type) where
  | ok (s : σ)
  | raised (s : σ)
deriving Repr, DecidableEq

/-- The state a step run ends in, whether or not it raised. -/
def StepResult.state {σ : Type} : StepResult σ → σ
  | .ok s => s
  | .raised s => s

/-- Sequencing: a raise skips the rest of the block. -/
def seqStep {σ : Type} (f g : σ → StepResult σ) (s : σ) : StepResult σ :=
  match f s with
  | .ok s1 => g s1
  | .raised s1 => .raised s1

/-- Python `try: body finally: fin`: `fin` runs on the state the body
reached; an exception of the body propagates after `fin` ran. -/
def runTryFinally {σ : Type} (body fin : σ → StepResult σ) (s : σ) :
    StepResult σ :=
  match body s with
  | .ok s1 => fin s1
  | .raised s1 =>
    match fin s1 with
    | .ok s2 => .raised s2
    | .raised s2 => .raised s2

def pulp_system_user : String := "pulp"

/-- `sudo chown -R who:who path`; on failure the owner is unchanged and the
tool raises. -/
def chownRecursive (who : String) (ok : Bool) (s : PathState) :
    StepResult PathState :=
  if ok then .ok { s with owner := who } else .raised s

/-- `find path -type f -name *snippet -exec rm -f` (line 464-465). -/
def removeSnippetFiles (ok : Bool) (s : PathState) : StepResult PathState :=
  if ok then .ok { s with snippets_removed := true } else .raised s

/-- `self.check_rpms_signature(repo_path, ...)` (line 466). -/
def runSignatureCheck (ok : Bool) (s : PathState) : StepResult PathState :=
  if ok then .ok { s with signature_checked := true } else .raised s

/-- `exporter.regenerate_repo_metadata(repo_path)` (line 602). -/
def regenerateMetadata (ok : Bool) (s : PathState) : StepResult PathState :=
  if ok then .ok { s with metadata_regenerated := true } else .raised s

/-- `exporter.update_ppc64le_errata(repodata)` (line 613). -/
def updateErrata (ok : Bool) (s : PathState) : StepResult PathState :=
  if ok then .ok { s with errata_updated := true } else .raised s

/-- `exporter.repomd_signer(repodata, key_id)` (line 614). -/
def signRepomd (ok : Bool) (s : PathState) : StepResult PathState :=
  if ok then .ok { s with repomd_signed := true } else .raised s

/-- The per-path block of `export_repos_from_pulp` (lines 459-472):
`try:` chown to the operator, remove snippet files, check signatures,
`finally:` chown back to the pulp system user. -/
def exportPathBlock (current_user : String)
    (chown_ok find_ok check_ok fin_ok : Bool) (s : PathState) :
    StepResult PathState :=
  runTryFinally
    (seqStep (chownRecursive current_user chown_ok)
      (seqStep (removeSnippetFiles find_ok) (runSignatureCheck check_ok)))
    (chownRecursive pulp_system_user fin_ok) s

/-- The per-path block of `main` (lines 598-618): `try:` chown to the
operator, regenerate metadata, merge errata, sign the repomd, `finally:`
chown back to the pulp system user. -/
def mainPathBlock (current_user : String)
    (chown_ok regen_ok errata_ok sign_ok fin_ok : Bool) (s : PathState) :
    StepResult PathState :=
  runTryFinally
    (seqStep (chownRecursive current_user chown_ok)
      (seqStep (regenerateMetadata regen_ok)
        (seqStep (updateErrata errata_ok) (signRepomd sign_ok))))
    (chownRecursive pulp_system_user fin_ok) s

/-- C9: on every exit path of both ownership-holding blocks — including
when the inner chown, snippet removal, signature check, metadata
regeneration, errata merge or signing raises — the `finally` clause runs
and the path ends owned by the pulp system user (provided the reverting
chown itself succeeds). -/
theorem C9_ownership_reversion (current_user : String)
    (chown_ok find_ok check_ok regen_ok errata_ok sign_ok fin_ok : Bool)
    (hfin : fin_ok = true) (s t : PathState) :
    (exportPathBlock current_user chown_ok find_ok check_ok fin_ok s).state.owner
      = pulp_system_user
    ∧ (mainPathBlock current_user chown_ok regen_ok errata_ok sign_ok fin_ok
        t).state.owner = pulp_system_user := by
  subst hfin
  constructor
  · cases chown_ok <;> cases find_ok <;> cases check_ok <;> rfl
  · cases chown_ok <;> cases regen_ok <;> cases errata_ok <;> cases sign_ok <;> rfl

/-- C9 witness: a concrete faulted run (the signature check raises) still
ends owned by the pulp system user. -/
theorem C9_witness :
    (exportPathBlock "operator" true true false true
      ⟨"pulp", false, false, false, false, false⟩).state.owner
      = pulp_system_user := by
  exact (C9_ownership_reversion "operator" true true false false false false true
    rfl ⟨"pulp", false, false, false, false, false⟩
    ⟨"pulp", false, false, false, false, false⟩).1

/-- C7 witness: an accepted package (authorized key) at a concrete input. -/
theorem C7_witness :
    "pkg4.rpm" ∈ (check_rpms_signature ["1111aaaa"] []
        (fun _ => ⟨0, "Signature   : RSA/SHA256, Key ID 1111AAAA"⟩)
        ["pkg4.rpm"]).no_signature_packages
      ↔ classifyPackage ["1111aaaa"] [] "pkg4.rpm"
          ⟨0, "Signature   : RSA/SHA256, Key ID 1111AAAA"⟩ = .unsigned := by
  exact (C7_classification_exactly_one ["1111aaaa"] []
    (fun _ => ⟨0, "Signature   : RSA/SHA256, Key ID 1111AAAA"⟩)
    ["pkg4.rpm"] "pkg4.rpm" (by decide)).1.2.1
